import Mathlib

/-!
Shallow embedding of the hostel-listing backend (src/app.js).

The service keeps one entity, the hostel record, in a persistent Record
Store (MongoDB, modelled as a `List Hostel` passed to each handler) and in
a process-wide in-memory cache (`hostelCache`, modelled as an explicit
`List Hostel` argument / state component).  JavaScript numbers are
modelled as exact rationals (`ℚ`), plus the two infinities where
`parseFloat` can produce them; `parseInt`/`parseFloat`/`Array.slice`
are embedded following the ECMAScript behaviour the handlers rely on.
-/

/-- The hostel record, after the mongoose schema (src/app.js lines 30-51). -/
structure Hostel where
  name : String
  images : List String
  location : String
  description : Option String
  category : String
  rating : Option ℚ
  rooms : List (String × ℚ)
deriving DecidableEq

/-- A JavaScript number as produced by `parseFloat`: an exact finite value
or one of the infinities (from an "Infinity" token).  NaN is represented
by `none` at the use sites. -/
inductive JSNum where
  | finite (q : ℚ)
  | posInf
  | negInf
deriving DecidableEq

/-- JS `<=` on the numbers `parseFloat` can produce. -/
def jsLe : JSNum → JSNum → Bool
  | .negInf, _ => true
  | _, .posInf => true
  | .finite a, .finite b => decide (a ≤ b)
  | _, _ => false

/-- Whitespace skipped by `parseInt`/`parseFloat` (ASCII whitespace and
no-break space; the full Unicode space class is not needed here). -/
def isJsSpace (c : Char) : Bool :=
  c == ' ' || c == '\t' || c == '\n' || c == '\r' || c == '\x0b' ||
    c == '\x0c' || c == '\u00A0'

def isDigitChar (c : Char) : Bool := '0' ≤ c && c ≤ '9'

def isHexDigitChar (c : Char) : Bool :=
  isDigitChar c || ('a' ≤ c && c ≤ 'f') || ('A' ≤ c && c ≤ 'F')

def digitVal (c : Char) : Nat := c.toNat - '0'.toNat

def hexDigitVal (c : Char) : Nat :=
  if isDigitChar c then digitVal c
  else if 'a' ≤ c && c ≤ 'f' then c.toNat - 'a'.toNat + 10
  else c.toNat - 'A'.toNat + 10

def decDigitsToNat (ds : List Char) : Nat :=
  ds.foldl (fun n c => 10 * n + digitVal c) 0

def hexDigitsToNat (ds : List Char) : Nat :=
  ds.foldl (fun n c => 16 * n + hexDigitVal c) 0

/-- Optional sign at the start of a numeric literal. -/
def jsSign : List Char → Int × List Char
  | '-' :: r => (-1, r)
  | '+' :: r => (1, r)
  | cs => (1, cs)

/-- ECMAScript `parseInt(s)` with no radix argument: skip whitespace, read
an optional sign, then either a `0x`/`0X` hexadecimal literal or a run of
decimal digits; `none` models the NaN result when no digit is found. -/
def jsParseIntCore (cs0 : List Char) : Option Int :=
  let cs1 := cs0.dropWhile isJsSpace
  let sc := jsSign cs1
  match sc.2 with
  | '0' :: c :: r =>
    if c == 'x' || c == 'X' then
      let ds := r.takeWhile isHexDigitChar
      if ds.isEmpty then none else some (sc.1 * (hexDigitsToNat ds : Int))
    else
      let ds := ('0' :: c :: r).takeWhile isDigitChar
      some (sc.1 * (decDigitsToNat ds : Int))
  | cs2 =>
    let ds := cs2.takeWhile isDigitChar
    if ds.isEmpty then none else some (sc.1 * (decDigitsToNat ds : Int))

def jsParseInt (s : String) : Option Int := jsParseIntCore s.data

/-- The idiom `parseInt(p) || d` (src/app.js lines 91, 92, 173): NaN and 0
are falsy, so both fall back to the default `d`. -/
def parseIntOr (p : Option String) (d : Int) : Int :=
  match p with
  | none => d
  | some s =>
    match jsParseInt s with
    | none => d
    | some n => if n = 0 then d else n

/-- The exact rational value of a parsed decimal literal: sign, integer
digits, fraction digits and decimal exponent. -/
def decValue (sgn : Int) (ip fp : List Char) (ex : Int) : ℚ :=
  let m : Int := sgn * (decDigitsToNat (ip ++ fp) : Int)
  let e : Int := ex - fp.length
  if 0 ≤ e then Rat.divInt (m * (10 ^ e.toNat : Int)) 1
  else Rat.divInt m (10 ^ (-e).toNat : Int)

/-- An exponent part `e`/`E` followed by an optionally signed digit run;
when the digits are missing the exponent part is not consumed (so the
value parsed so far stands, exponent 0). -/
def parseExpPart : List Char → Int
  | c :: rest =>
    if c == 'e' || c == 'E' then
      match rest with
      | '+' :: r =>
        let ds := r.takeWhile isDigitChar
        if ds.isEmpty then 0 else (decDigitsToNat ds : Int)
      | '-' :: r =>
        let ds := r.takeWhile isDigitChar
        if ds.isEmpty then 0 else -(decDigitsToNat ds : Int)
      | r =>
        let ds := r.takeWhile isDigitChar
        if ds.isEmpty then 0 else (decDigitsToNat ds : Int)
    else 0
  | [] => 0

/-- ECMAScript `parseFloat(s)`: skip whitespace, optional sign, then
either an "Infinity" token or the longest decimal literal prefix
(`digits [. digits] [exponent]`, needing at least one digit); `none`
models the NaN result. -/
def jsParseFloatCore (cs0 : List Char) : Option JSNum :=
  let cs1 := cs0.dropWhile isJsSpace
  let sc := jsSign cs1
  if "Infinity".data.isPrefixOf sc.2 then
    some (if sc.1 = 1 then .posInf else .negInf)
  else
    let ip := sc.2.takeWhile isDigitChar
    let rest := sc.2.dropWhile isDigitChar
    let fr : List Char × List Char :=
      match rest with
      | '.' :: r => (r.takeWhile isDigitChar, r.dropWhile isDigitChar)
      | _ => ([], rest)
    if ip.isEmpty && fr.1.isEmpty then none
    else some (.finite (decValue sc.1 ip fr.1 (parseExpPart fr.2)))

def jsParseFloat (s : String) : Option JSNum := jsParseFloatCore s.data

/-- One end index of `Array.prototype.slice`: a negative index counts from
the end of the array, and both are clamped to `[0, len]`. -/
def jsSliceIdx (len : Nat) (i : Int) : Nat :=
  if i < 0 then ((len : Int) + i).toNat else min i.toNat len

/-- `Array.prototype.slice(start, stop)` on a list. -/
def jsSlice {α : Type} (l : List α) (start stop : Int) : List α :=
  (l.take (jsSliceIdx l.length stop)).drop (jsSliceIdx l.length start)

/-- Math.ceil of an exact rational, as an integer.  (`/` on ℤ is euclidean
division, which is floor division for the positive denominator.) -/
def ratCeil (q : ℚ) : Int := (q.num + (q.den : Int) - 1) / (q.den : Int)

/-- The Cache Loader (src/app.js lines 59-66): `hostelCache = await
Hostel.find()` under try/catch.  The store read's outcome is passed in as
an `Except`; on success the cache is replaced by the fully fetched list in
one assignment, on failure the error is only logged and the previous
cache stays. -/
def prefetchHostelData (cache : List Hostel) (storeRead : Except String (List Hostel)) :
    List Hostel :=
  match storeRead with
  | .ok hostels => hostels
  | .error _ => cache

/-! ## Route GET /hostel/:name (src/app.js lines 79-87) -/

/-- Response of the lookup route: the first matching record as JSON, or
404 with a plain-text body. -/
inductive LookupResponse where
  | found (h : Hostel)
  | notFound (text : String)
deriving DecidableEq

/-- `hostelCache.find(h => h.name === hostelName)`, then JSON or 404. -/
def hostelByName (hostelName : String) (cache : List Hostel) : LookupResponse :=
  match cache.find? (fun h => h.name == hostelName) with
  | some h => .found h
  | none => .notFound "Hostel not found"

/-! ## Route GET /hostel-data (src/app.js lines 90-108) -/

/-- `.skip(n)` on a query result (negative skip cannot arise in the claims
settled here; `toNat` clamps it to 0). -/
def mongoSkip (l : List Hostel) (n : Int) : List Hostel := l.drop n.toNat

/-- `.limit(n)`: 0 means no limit, a negative cap acts as its absolute
value (MongoDB closes the cursor after `|n|` documents). -/
def mongoLimit (l : List Hostel) (n : Int) : List Hostel :=
  if n = 0 then l else l.take n.natAbs

/-- The 200 body of /hostel-data. -/
structure HostelDataResponse where
  totalPages : Int
  currentPage : Int
  hostels : List Hostel
deriving DecidableEq

/-- The /hostel-data handler: `page`/`limit` from the query string through
`parseInt(..) || default`, `skip = (page - 1) * limit`, one unfiltered
count and one skip/limit query, `totalPages = Math.ceil(total / limit)`.
(`limit` is never 0 here: a parsed 0 is falsy and falls back to 5.) -/
def hostelDataHandler (pageP limitP : Option String) (store : List Hostel) :
    HostelDataResponse :=
  let page := parseIntOr pageP 1
  let limit := parseIntOr limitP 5
  let skip := (page - 1) * limit
  let totalHostels := store.length
  { totalPages := ratCeil (Rat.divInt (totalHostels : Int) limit)
    currentPage := page
    hostels := mongoLimit (mongoSkip store skip) limit }

/-! ## Route GET /hostels (src/app.js lines 111-151) -/

/-- The filter object the handler builds: an optional exact-match
`category` condition and an optional `rating: { $gte: v }` condition. -/
structure MongoQuery where
  category : Option String
  rating : Option JSNum
deriving DecidableEq

/-- The sort object: `{}`, `{ rating: 1 }` or `{ rating: -1 }`. -/
inductive SortSpec where
  | noSort
  | asc
  | desc
deriving DecidableEq

/-- JS truthiness of an optional query-string parameter: absent
(undefined) and the empty string are falsy. -/
def isTruthy : Option String → Bool
  | none => false
  | some s => !(s == "")

/-- The query/sort construction of the /hostels handler (src/app.js lines
115-141): category copied into the filter when truthy; a truthy rating is
either one of the two sort tokens, or parsed with `parseFloat` into a
`$gte` bound, or rejected (`.error` carries the offending raw token and
aborts before any store access). -/
def buildHostelsQuery (category rating : Option String) :
    Except String (MongoQuery × SortSpec) :=
  let query : MongoQuery :=
    { category := if isTruthy category then category else none, rating := none }
  match rating with
  | none => .ok (query, .noSort)
  | some r =>
    if r == "" then .ok (query, .noSort)
    else if r == "low-to-high" then .ok (query, .asc)
    else if r == "high-to-low" then .ok (query, .desc)
    else
      match jsParseFloat r with
      | some v => .ok ({ query with rating := some v }, .noSort)
      | none => .error r

/-- Whether a record matches the filter: exact category match, and for a
`$gte` bound a present numeric rating at least the bound (a missing
rating field never matches a `$gte` number). -/
def matchesQuery (q : MongoQuery) (h : Hostel) : Bool :=
  (match q.category with
   | none => true
   | some c => h.category == c) &&
  (match q.rating with
   | none => true
   | some v =>
     match h.rating with
     | none => false
     | some r => jsLe v (.finite r))

/-- MongoDB ascending order on the rating key: a missing rating sorts
before every number. -/
def ratingLE (a b : Option ℚ) : Bool :=
  match a, b with
  | none, _ => true
  | some _, none => false
  | some x, some y => decide (x ≤ y)

def ratingGE (a b : Option ℚ) : Bool := ratingLE b a

def hostelAsc (h1 h2 : Hostel) : Bool := ratingLE h1.rating h2.rating

def hostelDesc (h1 h2 : Hostel) : Bool := ratingGE h1.rating h2.rating

/-- `.sort(sort)`: the empty sort object leaves the result order, the two
rating sorts order by the rating key. -/
def sortHostels : SortSpec → List Hostel → List Hostel
  | .noSort, l => l
  | .asc, l => l.mergeSort hostelAsc
  | .desc, l => l.mergeSort hostelDesc

/-- Response of /hostels: a JSON array, or 400 with a structured message. -/
inductive HostelsResponse where
  | ok (hostels : List Hostel)
  | badRequest (message : String)
deriving DecidableEq

/-- The /hostels handler: build the query, 400 on a rejected rating token
(before any store access), otherwise `Hostel.find(query).sort(sort)`. -/
def hostelsHandler (category rating : Option String) (store : List Hostel) :
    HostelsResponse :=
  match buildHostelsQuery category rating with
  | .error _ => .badRequest "Invalid rating value provided"
  | .ok qs => .ok (sortHostels qs.2 (store.filter (matchesQuery qs.1)))

/-! ## Route POST /search (src/app.js lines 154-169)

The handler sends the raw body field as a `$regex` with the `i` option
against `location` and `name`.  The regex dialect is embedded for the
constructs the claims touch: literal characters, identity escapes and the
`.` wildcard; patterns using other metacharacters are outside the model
(`parseRegexPattern` returns `none` for them). -/

/-- ASCII case folding, the effect of the `i` option on the characters
appearing here. -/
def foldChar (c : Char) : Char :=
  if 'A' ≤ c && c ≤ 'Z' then Char.ofNat (c.toNat + 32) else c

/-- The characters with a special meaning in the regex dialect. -/
def isRegexMeta (c : Char) : Bool :=
  c == '.' || c == '*' || c == '+' || c == '?' || c == '(' || c == ')' ||
    c == '[' || c == ']' || c == '{' || c == '}' || c == '|' ||
    c == '^' || c == '$' || c == '\\'

/-- One matching unit of a pattern. -/
inductive RAtom where
  | dot
  | lit (c : Char)
deriving DecidableEq

/-- Pattern text to atoms: `\c` is an identity escape for a
non-alphanumeric `c` (alphanumeric escapes are classes or backreferences,
outside the model), `.` is the wildcard, other metacharacters are outside
the model, anything else is a literal. -/
def parseRegexPattern : List Char → Option (List RAtom)
  | [] => some []
  | c :: rest =>
    if c == '\\' then
      match rest with
      | [] => none
      | c2 :: rest2 =>
        if c2.isAlphanum then none
        else (parseRegexPattern rest2).map (fun as => .lit c2 :: as)
    else if c == '.' then (parseRegexPattern rest).map (fun as => .dot :: as)
    else if isRegexMeta c then none
    else (parseRegexPattern rest).map (fun as => .lit c :: as)

/-- Whether one atom matches one character (case-insensitively; `.`
matches everything but a line terminator). -/
def atomMatch : RAtom → Char → Bool
  | .dot, c => !(c == '\n' || c == '\r' || c == '\u2028' || c == '\u2029')
  | .lit a, c => foldChar a == foldChar c

/-- Whether the atom sequence matches at the start of the text. -/
def matchHere : List RAtom → List Char → Bool
  | [], _ => true
  | _ :: _, [] => false
  | a :: as, c :: cs => atomMatch a c && matchHere as cs

/-- Unanchored regex search: the atom sequence matches somewhere in the
text. -/
def matchSearch (atoms : List RAtom) : List Char → Bool
  | [] => matchHere atoms []
  | c :: cs => matchHere atoms (c :: cs) || matchSearch atoms cs

/-- The /search handler: records whose `location` or `name` the pattern
matches, in store order; `none` when the body's pattern uses regex
constructs outside the embedded dialect. -/
def searchHandler (store : List Hostel) (q : String) : Option (List Hostel) :=
  (parseRegexPattern q.data).map (fun atoms =>
    store.filter (fun h =>
      matchSearch atoms h.location.data || matchSearch atoms h.name.data))

/-- Modelled from the spec's words for comparison with the code ("contains
the query string case-insensitively"): boolean prefix test on folded
characters. -/
def listPrefixB : List Char → List Char → Bool
  | [], _ => true
  | _ :: _, [] => false
  | a :: as, b :: bs => a == b && listPrefixB as bs

/-- Boolean contiguous-substring test. -/
def listContainsB (p : List Char) : List Char → Bool
  | [] => listPrefixB p []
  | c :: cs => listPrefixB p (c :: cs) || listContainsB p cs

/-- Case-insensitive substring containment, the spec's notion of a search
hit. -/
def containsCI (needle hay : String) : Bool :=
  listContainsB (needle.data.map foldChar) (hay.data.map foldChar)

/-! ## Route GET /hostel-limit (src/app.js lines 172-176) -/

/-- The /hostel-limit handler: `hostelCache.slice(0, parseInt(limit) || 5)`;
every path responds 200 with a JSON array. -/
def hostelLimitHandler (limitP : Option String) (cache : List Hostel) : List Hostel :=
  jsSlice cache 0 (parseIntOr limitP 5)

/-! ## The process as a step function

The cache is the only shared mutable state.  Every inbound event — one of
the seven routes or the completion of the one-shot prefetch — maps the
current cache to the next cache and an output. -/

inductive Event where
  | home
  | about
  | lookupReq (name : String)
  | dataReq (page limit : Option String)
  | hostelsReq (category rating : Option String)
  | searchReq (query : String)
  | limitReq (limit : Option String)
  | prefetchDone (storeRead : Except String (List Hostel))

inductive Output where
  | text (s : String)
  | lookup (r : LookupResponse)
  | data (r : HostelDataResponse)
  | hostels (r : HostelsResponse)
  | search (r : Option (List Hostel))
  | limited (l : List Hostel)
  | logOnly

/-- One step of the process: `store` is the external Record Store, `cache`
the in-memory `hostelCache` before the event; the pair is the cache after
the event and the response sent. -/
def step (store cache : List Hostel) : Event → List Hostel × Output
  | .home => (cache, .text "Hello World")
  | .about => (cache, .text "This is the About page")
  | .lookupReq n => (cache, .lookup (hostelByName n cache))
  | .dataReq p l => (cache, .data (hostelDataHandler p l store))
  | .hostelsReq c r => (cache, .hostels (hostelsHandler c r store))
  | .searchReq q => (cache, .search (searchHandler store q))
  | .limitReq l => (cache, .limited (hostelLimitHandler l cache))
  | .prefetchDone r => (prefetchHostelData cache r, .logOnly)

/-! ## Sample data for concrete instances -/

/-- A minimal record with the given name. -/
def mkHostel (n : String) : Hostel :=
  { name := n, images := [], location := "", description := none,
    category := "boys", rating := none, rooms := [] }

/-- A store of six records, enough to exercise pagination defaults. -/
def storeSix : List Hostel :=
  [mkHostel "a", mkHostel "b", mkHostel "c", mkHostel "d", mkHostel "e", mkHostel "f"]

/-! ## Theorems -/

/-- Claim C3: if the Cache Loader's store read fails, the cache is left
unchanged (the failure is non-fatal and only logged), and in every case
the new cache is either the prior value or the fully fetched list — never
a partial result. -/
theorem prefetch_error_leaves_cache_unchanged (cache : List Hostel) (e : String)
    (hs : List Hostel) (r : Except String (List Hostel)) :
    prefetchHostelData cache (.error e) = cache
    ∧ prefetchHostelData cache (.ok hs) = hs
    ∧ (prefetchHostelData cache r = cache
       ∨ ∃ l, r = .ok l ∧ prefetchHostelData cache r = l) := by
  refine ⟨rfl, rfl, ?_⟩
  cases r with
  | ok l => exact .inr ⟨l, rfl, rfl⟩
  | error e => exact .inl rfl

/-- Claim C10: no request handler modifies the in-memory cache — each of
the five data routes leaves the cache exactly as it was, and any event
that changes the cache can only be the one-shot prefetch completion. -/
theorem handlers_never_write_cache (store cache : List Hostel) (e : Event) :
    (∀ n, (step store cache (.lookupReq n)).1 = cache)
    ∧ (∀ p l, (step store cache (.dataReq p l)).1 = cache)
    ∧ (∀ c r, (step store cache (.hostelsReq c r)).1 = cache)
    ∧ (∀ q, (step store cache (.searchReq q)).1 = cache)
    ∧ (∀ l, (step store cache (.limitReq l)).1 = cache)
    ∧ ((step store cache e).1 = cache
       ∨ ∃ r, e = .prefetchDone r ∧ (step store cache e).1 = prefetchHostelData cache r) := by
  refine ⟨fun _ => rfl, fun _ _ => rfl, fun _ _ => rfl, fun _ => rfl, fun _ => rfl, ?_⟩
  cases e
  case prefetchDone r => exact .inr ⟨r, rfl, rfl⟩
  all_goals exact .inl rfl

/-- Claim C9: the name lookup is an exact-match linear scan of the cache —
it answers 404 "Hostel not found" precisely when no cached record bears
the name, any record it returns is a cached record with exactly that
name, and a record is returned iff one with that name is in the cache. -/
theorem hostelByName_exact_scan (hostelName : String) (cache : List Hostel) :
    (hostelByName hostelName cache = .notFound "Hostel not found"
      ↔ ∀ h ∈ cache, h.name ≠ hostelName)
    ∧ (∀ h, hostelByName hostelName cache = .found h → h ∈ cache ∧ h.name = hostelName)
    ∧ ((∃ h, hostelByName hostelName cache = .found h)
      ↔ ∃ h ∈ cache, h.name = hostelName) := by
  unfold hostelByName
  cases hfind : cache.find? (fun h => h.name == hostelName) with
  | some h =>
    have hmem : h ∈ cache := List.mem_of_find?_eq_some hfind
    have hname : h.name = hostelName := by
      have := List.find?_some hfind
      simpa using this
    refine ⟨⟨fun hcontra => by simp at hcontra, fun hall => absurd hname (hall h hmem)⟩,
      fun h' hh' => ?_, ⟨fun _ => ⟨h, hmem, hname⟩, fun _ => ⟨h, rfl⟩⟩⟩
    have : h = h' := by simpa using hh'
    exact this ▸ ⟨hmem, hname⟩
  | none =>
    have hall : ∀ h ∈ cache, h.name ≠ hostelName := by
      intro h hm
      have := List.find?_eq_none.mp hfind h hm
      simpa using this
    refine ⟨⟨fun _ => hall, fun _ => rfl⟩, fun h' hh' => by simp at hh', ?_⟩
    constructor
    · rintro ⟨h', hh'⟩
      simp at hh'
    · rintro ⟨h', hm, hn⟩
      exact absurd hn (hall h' hm)

/-- Claim C1 (amended): a present, nonempty rating token that is neither
sort keyword and does not parse as a float makes GET /hostels answer 400
with the structured message, and the query builder aborts with the
offending token before any store access. -/
theorem hostels_unparsable_rating_400 (category : Option String) (s : String)
    (store : List Hostel) (hne : s ≠ "") (h1 : s ≠ "low-to-high")
    (h2 : s ≠ "high-to-low") (hp : jsParseFloat s = none) :
    hostelsHandler category (some s) store = .badRequest "Invalid rating value provided"
    ∧ buildHostelsQuery category (some s) = .error s := by
  have e0 : (s == "") = false := by simpa using hne
  have e1 : (s == "low-to-high") = false := by simpa using h1
  have e2 : (s == "high-to-low") = false := by simpa using h2
  have hb : buildHostelsQuery category (some s) = .error s := by
    simp [buildHostelsQuery, e0, e1, e2, hp]
  exact ⟨by simp [hostelsHandler, hb], hb⟩

/-- Claim C1, witness: the spec's own example token "banana". -/
theorem hostels_unparsable_rating_400_ex :
    hostelsHandler none (some "banana") [] = .badRequest "Invalid rating value provided"
    ∧ buildHostelsQuery none (some "banana") = .error "banana" :=
  hostels_unparsable_rating_400 none "banana" [] (by decide) (by decide) (by decide)
    (by decide)

/-- Claim C1, counterexample to the unamended claim: the empty string is a
present rating parameter (`?rating=`), is neither sort keyword, and does
not parse as a float, yet the handler does not answer 400 — the empty
string is falsy in JS, so the whole rating block is skipped and the store
is queried. -/
theorem hostels_empty_rating_not_400 :
    hostelsHandler none (some "") [] = .ok []
    ∧ hostelsHandler none (some "") [] ≠ .badRequest "Invalid rating value provided"
    ∧ "" ≠ "low-to-high"
    ∧ "" ≠ "high-to-low"
    ∧ jsParseFloat "" = none := by decide

/-- Claim C7 (amended): page and limit fall back to their defaults (1 and
5) exactly when the parameter is absent, non-numeric, or parses to 0 —
`parseInt(x) || d` treats both NaN and 0 as falsy — and any nonzero
parsed value, negative values included, is used as supplied. -/
theorem pagination_defaults (d n : Int) (s : String) (pp lp : Option String)
    (store cache : List Hostel) :
    parseIntOr none d = d
    ∧ (jsParseInt s = none → parseIntOr (some s) d = d)
    ∧ (jsParseInt s = some 0 → parseIntOr (some s) d = d)
    ∧ (jsParseInt s = some n → n ≠ 0 → parseIntOr (some s) d = n)
    ∧ (hostelDataHandler pp lp store).currentPage = parseIntOr pp 1
    ∧ hostelLimitHandler lp cache = jsSlice cache 0 (parseIntOr lp 5) := by
  refine ⟨rfl, fun h => by simp [parseIntOr, h], fun h => by simp [parseIntOr, h],
    fun h hn => by simp [parseIntOr, h, hn], rfl, rfl⟩

/-- Claim C7, counterexample to the unamended claim: the numeric value 0
is not used as supplied — `limit=0` behaves as the default.  With six
records and `limit=0` the /hostel-data page still holds 5 records, and
/hostel-limit with `limit=0` returns the whole 3-record cache instead of
0 records. -/
theorem pagination_zero_not_used :
    parseIntOr (some "0") 5 = 5
    ∧ jsParseInt "0" = some 0
    ∧ (5 : Int) ≠ 0
    ∧ (hostelDataHandler (some "1") (some "0") storeSix).hostels.length = 5
    ∧ hostelLimitHandler (some "0") [mkHostel "a", mkHostel "b", mkHostel "c"]
        ≠ List.take 0 [mkHostel "a", mkHostel "b", mkHostel "c"] := by decide

/-- Claim C6 (amended): whenever the parsed limit is nonnegative (the
default 5 and every positive limit), /hostel-limit answers exactly the
first `limit` cached entries in load order — all entries when the cache
is smaller, `[]` on an empty cache — and the route has no error path. -/
theorem hostelLimit_first_entries (lp : Option String) (cache : List Hostel)
    (hnn : 0 ≤ parseIntOr lp 5) :
    hostelLimitHandler lp cache = cache.take (parseIntOr lp 5).toNat := by
  unfold hostelLimitHandler jsSlice jsSliceIdx
  have hlt : ¬ parseIntOr lp 5 < 0 := not_lt.mpr hnn
  simp only [if_neg hlt, Int.toNat_zero]
  have h0 : ¬ (0 : Int) < 0 := by decide
  simp only [if_neg h0, Nat.zero_min, List.drop_zero]
  rcases le_total (parseIntOr lp 5).toNat cache.length with hle | hle
  · rw [min_eq_left hle]
  · rw [min_eq_right hle, List.take_length, List.take_of_length_le hle]

/-- Claim C6, witness: `limit=2` on a 3-record cache yields the first two
entries. -/
theorem hostelLimit_first_entries_ex :
    hostelLimitHandler (some "2") [mkHostel "a", mkHostel "b", mkHostel "c"]
      = List.take (parseIntOr (some "2") 5).toNat [mkHostel "a", mkHostel "b", mkHostel "c"] :=
  hostelLimit_first_entries (some "2") [mkHostel "a", mkHostel "b", mkHostel "c"] (by decide)

/-- Claim C6, counterexample to the unamended claim: `limit=-1` on a
3-record cache.  JS `slice(0, -1)` counts from the end, so the route
answers the first two entries — neither "exactly limit entries" (the
cache size 3 exceeds -1 but 2 ≠ -1) nor all entries. -/
theorem hostelLimit_negative_limit :
    hostelLimitHandler (some "-1") [mkHostel "a", mkHostel "b", mkHostel "c"]
      = [mkHostel "a", mkHostel "b"]
    ∧ parseIntOr (some "-1") 5 = -1
    ∧ (-1 : Int) ≤ 3
    ∧ (([mkHostel "a", mkHostel "b"].length : Int)) ≠ -1
    ∧ hostelLimitHandler (some "-1") [mkHostel "a", mkHostel "b", mkHostel "c"]
        ≠ [mkHostel "a", mkHostel "b", mkHostel "c"] := by decide

/-! ## Ordering facts for the rating sort -/

theorem ratingLE_trans (a b c : Option ℚ) (h1 : ratingLE a b = true)
    (h2 : ratingLE b c = true) : ratingLE a c = true := by
  cases a <;> cases b <;> cases c <;> simp [ratingLE] at *
  exact le_trans h1 h2

theorem ratingLE_total (a b : Option ℚ) : (ratingLE a b || ratingLE b a) = true := by
  cases a <;> cases b <;> simp [ratingLE]
  exact le_total _ _

theorem hostelAsc_trans (a b c : Hostel) (h1 : hostelAsc a b = true)
    (h2 : hostelAsc b c = true) : hostelAsc a c = true :=
  ratingLE_trans _ _ _ h1 h2

theorem hostelAsc_total (a b : Hostel) : (hostelAsc a b || hostelAsc b a) = true :=
  ratingLE_total _ _

theorem hostelDesc_trans (a b c : Hostel) (h1 : hostelDesc a b = true)
    (h2 : hostelDesc b c = true) : hostelDesc a c = true :=
  ratingLE_trans _ _ _ h2 h1

theorem hostelDesc_total (a b : Hostel) : (hostelDesc a b || hostelDesc b a) = true := by
  have := ratingLE_total b.rating a.rating
  simpa [hostelDesc, ratingGE, Bool.or_comm] using this

/-- Claim C5: the rating token "low-to-high" makes GET /hostels sort
ascending by rating without adding a rating filter, so the response's
rating column is non-decreasing; "high-to-low" sorts descending without a
filter, so it is non-increasing.  (A missing rating sorts below every
number, as MongoDB orders it.) -/
theorem hostels_sort_tokens (category : Option String) (store : List Hostel) :
    (∃ q, buildHostelsQuery category (some "low-to-high") = .ok (q, .asc)
      ∧ q.rating = none)
    ∧ (∃ l, hostelsHandler category (some "low-to-high") store = .ok l
      ∧ List.Chain' (fun a b => ratingLE a b = true) (l.map Hostel.rating))
    ∧ (∃ q, buildHostelsQuery category (some "high-to-low") = .ok (q, .desc)
      ∧ q.rating = none)
    ∧ (∃ l, hostelsHandler category (some "high-to-low") store = .ok l
      ∧ List.Chain' (fun a b => ratingGE a b = true) (l.map Hostel.rating)) := by
  set q0 : MongoQuery :=
    { category := if isTruthy category then category else none, rating := none } with hq0
  have hba : buildHostelsQuery category (some "low-to-high") = .ok (q0, .asc) := rfl
  have hbd : buildHostelsQuery category (some "high-to-low") = .ok (q0, .desc) := rfl
  have hha : hostelsHandler category (some "low-to-high") store
      = .ok ((store.filter (matchesQuery q0)).mergeSort hostelAsc) := by
    unfold hostelsHandler
    rw [hba]
    rfl
  have hhd : hostelsHandler category (some "high-to-low") store
      = .ok ((store.filter (matchesQuery q0)).mergeSort hostelDesc) := by
    unfold hostelsHandler
    rw [hbd]
    rfl
  have hpa := List.sorted_mergeSort hostelAsc_trans hostelAsc_total
    (store.filter (matchesQuery q0))
  have hpd := List.sorted_mergeSort hostelDesc_trans hostelDesc_total
    (store.filter (matchesQuery q0))
  exact ⟨⟨q0, hba, rfl⟩,
    ⟨_, hha, (List.Pairwise.map Hostel.rating (fun a b h => h) hpa).chain'⟩,
    ⟨q0, hbd, rfl⟩,
    ⟨_, hhd, (List.Pairwise.map Hostel.rating (fun a b h => h) hpd).chain'⟩⟩

/-! ## Ceiling arithmetic for the pagination response -/

/-- The embedded Math.ceil agrees with the mathematical ceiling. -/
theorem ratCeil_eq_ceil (q : ℚ) : ratCeil q = ⌈q⌉ := by
  have hd : (0 : Int) < (q.den : Int) := by exact_mod_cast q.den_pos
  set z : Int := ratCeil q with hzdef
  have hzd : (q.den : Int) * z + (q.num + (q.den : Int) - 1) % (q.den : Int)
      = q.num + (q.den : Int) - 1 := Int.ediv_add_emod _ _
  have hr0 : 0 ≤ (q.num + (q.den : Int) - 1) % (q.den : Int) :=
    Int.emod_nonneg _ (ne_of_gt hd)
  have hrd : (q.num + (q.den : Int) - 1) % (q.den : Int) < (q.den : Int) :=
    Int.emod_lt_of_pos _ hd
  have hdq : (0 : ℚ) < (q.den : ℚ) := by exact_mod_cast hd
  symm
  rw [Int.ceil_eq_iff]
  constructor
  · rw [← Rat.num_div_den q, lt_div_iff₀ hdq]
    have hint : (z - 1) * (q.den : Int) < q.num := by nlinarith [hzd, hr0]
    exact_mod_cast hint
  · rw [← Rat.num_div_den q, div_le_iff₀ hdq]
    have hint : q.num ≤ z * (q.den : Int) := by nlinarith [hzd, hrd]
    exact_mod_cast hint

/-- Ceiling of a quotient of naturals as natural division, the form the
spec states for `totalPages`. -/
theorem ceil_natCast_div (t l : ℕ) (hl : 1 ≤ l) :
    ⌈(t : ℚ) / (l : ℚ)⌉ = (((t + l - 1) / l : ℕ) : ℤ) := by
  have haz : ((t + l - 1 : ℕ) : ℤ) = (t : ℤ) + l - 1 := by omega
  have h1 : (l : ℤ) * (((t + l - 1) / l : ℕ) : ℤ) + (((t + l - 1) % l : ℕ) : ℤ)
      = ((t + l - 1 : ℕ) : ℤ) := by exact_mod_cast Nat.div_add_mod (t + l - 1) l
  have hr0 : (0 : ℤ) ≤ (((t + l - 1) % l : ℕ) : ℤ) := by positivity
  have hrd : (((t + l - 1) % l : ℕ) : ℤ) < (l : ℤ) := by
    exact_mod_cast Nat.mod_lt _ (show 0 < l by omega)
  have hlq : (0 : ℚ) < (l : ℚ) := by exact_mod_cast hl
  rw [Int.ceil_eq_iff]
  constructor
  · rw [lt_div_iff₀ hlq]
    have hint : ((((t + l - 1) / l : ℕ) : ℤ) - 1) * l < t := by nlinarith [h1, haz, hr0]
    push_cast
    exact_mod_cast hint
  · rw [div_le_iff₀ hlq]
    have hint : (t : ℤ) ≤ (((t + l - 1) / l : ℕ) : ℤ) * l := by nlinarith [h1, haz, hrd]
    push_cast
    exact_mod_cast hint

/-- Claim C2: for effective page ≥ 1 and limit ≥ 1, GET /hostel-data
queries the store with `skip = (page-1)*limit` and `limit` (the response
body holds exactly that window), the page holds at most `limit` records,
`currentPage` echoes the page, and `totalPages` is the ceiling of the
unfiltered document count over `limit` (equivalently, in natural
division, `(total + limit - 1) / limit`). -/
theorem hostelData_pagination (pp lp : Option String) (store : List Hostel)
    (page limit : Int) (hpage : parseIntOr pp 1 = page) (hlimit : parseIntOr lp 5 = limit)
    (hp1 : 1 ≤ page) (hl1 : 1 ≤ limit) :
    (hostelDataHandler pp lp store).hostels
        = (store.drop ((page - 1) * limit).toNat).take limit.toNat
    ∧ (hostelDataHandler pp lp store).hostels.length ≤ limit.toNat
    ∧ (hostelDataHandler pp lp store).currentPage = page
    ∧ (hostelDataHandler pp lp store).totalPages = ⌈(store.length : ℚ) / (limit : ℚ)⌉
    ∧ (hostelDataHandler pp lp store).totalPages
        = (((store.length + limit.toNat - 1) / limit.toNat : ℕ) : ℤ) := by
  subst hpage hlimit
  have hne : parseIntOr lp 5 ≠ 0 := by omega
  have habs : (parseIntOr lp 5).natAbs = (parseIntOr lp 5).toNat := by omega
  have hcast : ((parseIntOr lp 5 : ℤ) : ℚ) = (((parseIntOr lp 5).toNat : ℕ) : ℚ) := by
    have := Int.toNat_of_nonneg (show 0 ≤ parseIntOr lp 5 by omega)
    exact_mod_cast this.symm
  have hceil : (hostelDataHandler pp lp store).totalPages
      = ⌈(store.length : ℚ) / ((parseIntOr lp 5 : ℤ) : ℚ)⌉ := by
    show ratCeil (Rat.divInt (store.length : ℤ) (parseIntOr lp 5)) = _
    rw [ratCeil_eq_ceil, Rat.divInt_eq_div]
    norm_cast
  refine ⟨?_, ?_, rfl, hceil, ?_⟩
  · show mongoLimit (mongoSkip store _) _ = _
    rw [mongoLimit, mongoSkip, if_neg hne, habs]
  · show (mongoLimit (mongoSkip store _) _).length ≤ _
    rw [mongoLimit, mongoSkip, if_neg hne, habs]
    simp [List.length_take]
  · rw [hceil, hcast, ceil_natCast_div _ _ (by omega)]

/-- Claim C2, witness: `page=2`, `limit=3` on a six-record store. -/
theorem hostelData_pagination_ex :
    (hostelDataHandler (some "2") (some "3") storeSix).hostels
        = (storeSix.drop ((2 - 1) * 3 : Int).toNat).take (3 : Int).toNat
    ∧ (hostelDataHandler (some "2") (some "3") storeSix).hostels.length ≤ (3 : Int).toNat
    ∧ (hostelDataHandler (some "2") (some "3") storeSix).currentPage = 2
    ∧ (hostelDataHandler (some "2") (some "3") storeSix).totalPages
        = ⌈(storeSix.length : ℚ) / ((3 : Int) : ℚ)⌉
    ∧ (hostelDataHandler (some "2") (some "3") storeSix).totalPages
        = (((storeSix.length + (3 : Int).toNat - 1) / (3 : Int).toNat : ℕ) : ℤ) :=
  hostelData_pagination (some "2") (some "3") storeSix 2 3 (by decide) (by decide)
    (by decide) (by decide)

/-- Claim C4: a present rating token that is neither sort keyword and
parses as the float `v` puts the condition `rating >= v` into the store
filter and adds no sort — the response is the plain filtered store, in
store order, and every returned record carries a rating at least `v`. -/
theorem hostels_numeric_rating_filter (category : Option String) (s : String) (v : JSNum)
    (store : List Hostel) (h1 : s ≠ "low-to-high") (h2 : s ≠ "high-to-low")
    (hp : jsParseFloat s = some v) :
    (∃ q, buildHostelsQuery category (some s) = .ok (q, .noSort) ∧ q.rating = some v)
    ∧ (∃ l, hostelsHandler category (some s) store = .ok l
        ∧ l = store.filter (matchesQuery
            { category := if isTruthy category then category else none, rating := some v })
        ∧ ∀ h ∈ l, ∃ r, h.rating = some r ∧ jsLe v (.finite r) = true) := by
  have hne : s ≠ "" := by
    intro h
    subst h
    rw [show jsParseFloat "" = none from by decide] at hp
    exact Option.noConfusion hp
  have e0 : (s == "") = false := by simpa using hne
  have e1 : (s == "low-to-high") = false := by simpa using h1
  have e2 : (s == "high-to-low") = false := by simpa using h2
  have hb : buildHostelsQuery category (some s)
      = .ok ({ category := if isTruthy category then category else none,
               rating := some v }, .noSort) := by
    simp [buildHostelsQuery, e0, e1, e2, hp]
  have hh : hostelsHandler category (some s) store
      = .ok (store.filter (matchesQuery
          { category := if isTruthy category then category else none,
            rating := some v })) := by
    unfold hostelsHandler
    rw [hb]
    rfl
  refine ⟨⟨_, hb, rfl⟩, ⟨_, hh, rfl, ?_⟩⟩
  intro h hmem
  rw [List.mem_filter] at hmem
  obtain ⟨-, hmq⟩ := hmem
  simp only [matchesQuery, Bool.and_eq_true] at hmq
  obtain ⟨-, hmq2⟩ := hmq
  cases hr : h.rating with
  | none =>
    rw [hr] at hmq2
    exact Bool.noConfusion hmq2
  | some r =>
    rw [hr] at hmq2
    exact ⟨r, rfl, hmq2⟩

/-- Claim C4, witness: the spec's own example token "3". -/
theorem hostels_numeric_rating_filter_ex :
    (∃ q, buildHostelsQuery none (some "3") = .ok (q, .noSort) ∧ q.rating = some (.finite 3))
    ∧ (∃ l, hostelsHandler none (some "3") storeSix = .ok l
        ∧ l = storeSix.filter (matchesQuery
            { category := if isTruthy none then none else none, rating := some (.finite 3) })
        ∧ ∀ h ∈ l, ∃ r, h.rating = some r ∧ jsLe (.finite 3) (.finite r) = true) :=
  hostels_numeric_rating_filter none "3" (.finite 3) storeSix (by decide) (by decide)
    (by decide)

/-! ## The search pattern on metacharacter-free queries -/

/-- A pattern with no metacharacter parses to its characters as literal
atoms. -/
theorem parseRegexPattern_literal (l : List Char)
    (h : l.all (fun c => !(isRegexMeta c)) = true) :
    parseRegexPattern l = some (l.map .lit) := by
  induction l with
  | nil => rfl
  | cons c cs ih =>
    rw [List.all_cons, Bool.and_eq_true] at h
    obtain ⟨h1, h2⟩ := h
    rw [Bool.not_eq_true'] at h1
    have hbs : (c == '\\') = false := by
      cases hc : c == '\\' with
      | false => rfl
      | true =>
        rw [show isRegexMeta c = true from by simp [isRegexMeta, hc]] at h1
        exact Bool.noConfusion h1
    have hdot : (c == '.') = false := by
      cases hc : c == '.' with
      | false => rfl
      | true =>
        rw [show isRegexMeta c = true from by simp [isRegexMeta, hc]] at h1
        exact Bool.noConfusion h1
    unfold parseRegexPattern
    simp [hbs, hdot, h1, ih h2]

/-- On literal atoms, matching at the start of the text is the folded
prefix test. -/
theorem matchHere_literal (l cs : List Char) :
    matchHere (l.map .lit) cs = listPrefixB (l.map foldChar) (cs.map foldChar) := by
  induction l generalizing cs with
  | nil => cases cs <;> rfl
  | cons a as ih =>
    cases cs with
    | nil => rfl
    | cons c cs' => simp [matchHere, listPrefixB, atomMatch, ih]

/-- On literal atoms, the unanchored search is the folded substring
test. -/
theorem matchSearch_literal (l cs : List Char) :
    matchSearch (l.map .lit) cs = listContainsB (l.map foldChar) (cs.map foldChar) := by
  induction cs with
  | nil => simp [matchSearch, listContainsB, matchHere_literal]
  | cons c cs' ih => simp [matchSearch, listContainsB, matchHere_literal, ih]

/-- Claim C8 (amended): for a query with no regex metacharacter, POST
/search answers exactly the records whose location or name contains the
query case-insensitively — every such record and no other, in store
order. -/
theorem search_literal_query (store : List Hostel) (q : String)
    (hq : q.data.all (fun c => !(isRegexMeta c)) = true) :
    searchHandler store q
      = some (store.filter (fun h => containsCI q h.location || containsCI q h.name)) := by
  unfold searchHandler
  rw [parseRegexPattern_literal q.data hq]
  simp only [Option.map_some', Option.some.injEq]
  apply List.filter_congr
  intro h _
  rw [matchSearch_literal, matchSearch_literal]
  rfl

/-- A record whose name and location both mention "North" in some case. -/
def northHostel : Hostel :=
  { name := "North Star", images := [], location := "Delhi", description := none,
    category := "co-ed", rating := some 4, rooms := [] }

/-- Claim C8, witness: the spec's own example query "north". -/
theorem search_literal_query_ex :
    searchHandler [northHostel, mkHostel "South End"] "north"
      = some ([northHostel, mkHostel "South End"].filter
          (fun h => containsCI "north" h.location || containsCI "north" h.name)) :=
  search_literal_query [northHostel, mkHostel "South End"] "north" (by decide)

/-- A record containing no dot anywhere. -/
def plainHostel : Hostel :=
  { name := "abc", images := [], location := "x", description := none,
    category := "boys", rating := none, rooms := [] }

/-- Claim C8, counterexample to the unamended claim: the body field is
used as a regex pattern, not a literal string, so the query "." matches a
record that contains no dot at all — the response is not "records
containing the query string". -/
theorem search_dot_not_substring :
    searchHandler [plainHostel] "." = some [plainHostel]
    ∧ containsCI "." plainHostel.name = false
    ∧ containsCI "." plainHostel.location = false := by decide
